import Mathlib

/-!
Shallow embedding of the cgroups filesystem layer: the device-access
controller (`src/fs/devices.rs`) and the hierarchy discovery logic
(`src/fs/hierarchies.rs`).  File I/O is made explicit: functions that read a
kernel file take the file's content as an argument, and functions that write
take an oracle deciding whether each attempted write succeeds, returning the
trace of attempted writes.
-/

namespace CgFs

/-- Synonym for `Char`, usable where the constructor `DeviceType.Char`
shadows the type name. -/
abbrev RChar := Char

/-- Modelled from the spec: error kinds of `error.rs` (not in the sources):
`ParseError`, `ReadFailed(path)`, `WriteFailed(path, payload)` (§7).  The
wrapped low-level I/O cause is not modelled. -/
inductive ErrorKind where
  | parseError
  | readFailed (path : String)
  | writeFailed (path payload : String)
deriving DecidableEq, Repr

/-- `DeviceType` from `devices.rs`: All, Char, Block. -/
inductive DeviceType where
  | All
  | Char
  | Block
deriving DecidableEq, Repr

/-- `DeviceType::to_char`. -/
def DeviceType.to_char : DeviceType → RChar
  | DeviceType.All => 'a'
  | DeviceType.Char => 'c'
  | DeviceType.Block => 'b'

/-- `DeviceType::from_char`. -/
def DeviceType.from_char : Option RChar → Option DeviceType
  | some 'a' => some DeviceType.All
  | some 'c' => some DeviceType.Char
  | some 'b' => some DeviceType.Block
  | _ => none

/-- `DevicePermissions` from `devices.rs`: Read, Write, MkNod. -/
inductive DevicePermissions where
  | Read
  | Write
  | MkNod
deriving DecidableEq, Repr

/-- `DevicePermissions::to_char`. -/
def DevicePermissions.to_char : DevicePermissions → Char
  | DevicePermissions.Read => 'r'
  | DevicePermissions.Write => 'w'
  | DevicePermissions.MkNod => 'm'

/-- `DevicePermissions::from_char`. -/
def DevicePermissions.from_char : Char → Option DevicePermissions
  | 'r' => some DevicePermissions.Read
  | 'w' => some DevicePermissions.Write
  | 'm' => some DevicePermissions.MkNod
  | _ => none

/-- The char-by-char decoding loop of `DevicePermissions::from_str`:
each character is decoded with `from_char`, a failure aborting with
`ParseError`. -/
def DevicePermissions.from_chars : List Char → Except ErrorKind (List DevicePermissions)
  | [] => Except.ok []
  | c :: cs =>
    match DevicePermissions.from_char c with
    | none => Except.error ErrorKind.parseError
    | some p =>
      match DevicePermissions.from_chars cs with
      | Except.error e => Except.error e
      | Except.ok v => Except.ok (p :: v)

/-- `DevicePermissions::from_str`: the empty string yields the empty
permission list, otherwise each character is decoded via `from_char`. -/
def DevicePermissions.from_str (s : String) : Except ErrorKind (List DevicePermissions) :=
  if s.data = [] then Except.ok []
  else DevicePermissions.from_chars s.data

/-- Modelled from the spec: `DeviceResource` (§3) — one device rule, declared
in the crate's `mod.rs` which is not among the sources. -/
structure DeviceResource where
  allow : Bool
  devtype : DeviceType
  major : Int
  minor : Int
  access : List DevicePermissions
deriving DecidableEq, Repr

/-- Modelled from the spec: `DeviceResources` (§3) — an ordered sequence of
`DeviceResource`. -/
structure DeviceResources where
  devices : List DeviceResource
deriving DecidableEq, Repr

/-- Modelled from the spec: the composite resource-policy object (§4.5); only
its device sub-section is relevant to the embedded controller. -/
structure Resources where
  devices : DeviceResources
deriving DecidableEq, Repr

/-! ### Decimal integer parsing (Rust `str::parse::<i64>`) -/

/-- Numeric value of a decimal digit character. -/
def digit_val (c : Char) : Nat := c.toNat - 48

/-- Value of a non-empty all-digit character list, most significant digit
first; `none` if the list is empty or contains a non-digit. -/
def dec_digits_val (cs : List Char) : Option Nat :=
  match cs with
  | [] => none
  | _ =>
    if cs.all Char.isDigit then
      some (cs.foldl (fun a c => a * 10 + digit_val c) 0)
    else none

/-- Largest `i64` value. -/
def I64_MAX : Nat := 2 ^ 63 - 1

/-- Absolute value of the smallest `i64` value. -/
def I64_MIN_ABS : Nat := 2 ^ 63

/-- Rust's `str::parse::<i64>`: an optional single leading sign followed by at
least one decimal digit, rejecting values outside the `i64` range. -/
def parse_i64 (s : String) : Option Int :=
  match s.data with
  | [] => none
  | c :: cs =>
    if c = '-' then
      match dec_digits_val cs with
      | some n => if n ≤ I64_MIN_ABS then some (-(n : Int)) else none
      | none => none
    else if c = '+' then
      match dec_digits_val cs with
      | some n => if n ≤ I64_MAX then some ((n : Int)) else none
      | none => none
    else
      match dec_digits_val (c :: cs) with
      | some n => if n ≤ I64_MAX then some ((n : Int)) else none
      | none => none

/-- `parse_device_number` from `devices.rs`: `"*"` maps to `-1`, anything else
is parsed as a signed 64-bit integer, failing with `ParseError`. -/
def parse_device_number (s : String) : Except ErrorKind Int :=
  if s = "*" then Except.ok (-1)
  else
    match parse_i64 s with
    | some v => Except.ok v
    | none => Except.error ErrorKind.parseError

/-! ### Character-level string splitting (Rust `str::split`) -/

/-- Rust `str::split` with a character predicate: tokens between separator
occurrences, empty tokens included; the result is always non-empty. -/
def splitChars (p : Char → Bool) : List Char → List (List Char)
  | [] => [[]]
  | c :: cs =>
    if p c then [] :: splitChars p cs
    else
      match splitChars p cs with
      | t :: ts => (c :: t) :: ts
      | [] => [[c]]

/-- Split a string on a single separator character, Rust `s.split(sep)`. -/
def rust_split_char (sep : Char) (s : String) : List String :=
  (splitChars (fun c => c = sep) s.data).map String.mk

/-- Split on both space and colon, as `line.split([' ', ':'])` in
`parse_device_line`. -/
def rust_split_space_colon (s : String) : List String :=
  (splitChars (fun c => c = ' ' || c = ':') s.data).map String.mk

/-- Rust `str::trim` (on ASCII whitespace). -/
def trimChars (cs : List Char) : List Char :=
  ((cs.dropWhile Char.isWhitespace).reverse.dropWhile Char.isWhitespace).reverse

/-- Rust `str::trim` at the `String` level. -/
def rust_trim (s : String) : String := String.mk (trimChars s.data)

/-- Drop a trailing carriage return, as Rust's `str::lines` does per line. -/
def strip_cr (l : List Char) : List Char :=
  match l.getLast? with
  | some ch => if ch = '\r' then l.dropLast else l
  | none => l

/-- Rust `str::lines`: split on newline, a trailing newline yielding no final
empty line, and strip one trailing carriage return from each line. -/
def rust_lines (s : String) : List String :=
  let parts := splitChars (fun c => c = '\n') s.data
  let parts := if parts.getLast? = some [] then parts.dropLast else parts
  parts.map (fun l => String.mk (strip_cr l))

/-! ### The device line codec of `devices.rs` -/

/-- `parse_device_line` from `devices.rs`: split the line on both space and
colon, require exactly 4 tokens, decode type character, major, minor and
permission characters. -/
def parse_device_line (line : String) (allow : Bool) : Except ErrorKind DeviceResource :=
  let parts := rust_split_space_colon line
  if parts.length ≠ 4 then Except.error ErrorKind.parseError
  else
    match DeviceType.from_char (parts.getD 0 "").data.head? with
    | none => Except.error ErrorKind.parseError
    | some devtype =>
      match parse_device_number (parts.getD 1 "") with
      | Except.error e => Except.error e
      | Except.ok major =>
        match parse_device_number (parts.getD 2 "") with
        | Except.error e => Except.error e
        | Except.ok minor =>
          match DevicePermissions.from_str (parts.getD 3 "") with
          | Except.error e => Except.error e
          | Except.ok access =>
            Except.ok { allow := allow, devtype := devtype, major := major,
                        minor := minor, access := access }

/-- The `major`/`minor` rendering of `allow_device`/`deny_device`: `-1`
renders as `"*"`, any other value as its decimal representation. -/
def device_number_string (v : Int) : String :=
  if v = -1 then "*" else Int.repr v

/-- The `final_str` payload of `allow_device`/`deny_device`:
`format!("{} {}:{} {}", devtype.to_char(), major, minor, perms)`. -/
def device_rule_string (devtype : DeviceType) (major minor : Int)
    (perm : List DevicePermissions) : String :=
  let perms := String.mk (perm.map DevicePermissions.to_char)
  let minor_s := device_number_string minor
  let major_s := device_number_string major
  String.singleton devtype.to_char ++ " " ++ major_s ++ ":" ++ minor_s ++ " " ++ perms

/-! ### The devices controller -/

/-- `DevicesController` from `devices.rs`: a base mount root and a relative
path (paths as plain strings). -/
structure DevicesController where
  base : String
  path : String
deriving DecidableEq, Repr

/-- `DevicesController::new(point, root)`: `base` is `root` and `path` is
`point`. -/
def DevicesController.new (point root : String) : DevicesController :=
  { base := root, path := point }

/-- One attempted kernel write: target file name and payload. -/
structure WriteOp where
  file : String
  payload : String
deriving DecidableEq, Repr

/-- `PathBuf::join` on string paths. -/
def path_join (a b : String) : String := a ++ "/" ++ b

/-- An oracle deciding whether each attempted kernel write succeeds; it
models the outcome of `open_path` plus `write_all`. -/
def WriteOracle := WriteOp → Bool

/-- `DevicesController::allow_device`: render the rule, attempt one write to
`devices.allow`; on failure report `WriteFailed` with the target path and the
exact payload.  Returns the result together with the trace of attempted
writes. -/
def DevicesController.allow_device (c : DevicesController) (wr : WriteOracle)
    (devtype : DeviceType) (major minor : Int) (perm : List DevicePermissions) :
    Except ErrorKind Unit × List WriteOp :=
  let final_str := device_rule_string devtype major minor perm
  let op : WriteOp := { file := "devices.allow", payload := final_str }
  if wr op then (Except.ok (), [op])
  else (Except.error (ErrorKind.writeFailed (path_join c.path "devices.allow") final_str), [op])

/-- `DevicesController::deny_device`: as `allow_device`, but targeting
`devices.deny`. -/
def DevicesController.deny_device (c : DevicesController) (wr : WriteOracle)
    (devtype : DeviceType) (major minor : Int) (perm : List DevicePermissions) :
    Except ErrorKind Unit × List WriteOp :=
  let final_str := device_rule_string devtype major minor perm
  let op : WriteOp := { file := "devices.deny", payload := final_str }
  if wr op then (Except.ok (), [op])
  else (Except.error (ErrorKind.writeFailed (path_join c.path "devices.deny") final_str), [op])

/-- The rule loop of `DevicesController::apply`: for each resource in order,
call `allow_device` when its `allow` flag is set, else `deny_device`; the
`?` operator aborts at the first error. -/
def DevicesController.apply_rules (c : DevicesController) (wr : WriteOracle) :
    List DeviceResource → Except ErrorKind Unit × List WriteOp
  | [] => (Except.ok (), [])
  | i :: rest =>
    let step :=
      if i.allow then c.allow_device wr i.devtype i.major i.minor i.access
      else c.deny_device wr i.devtype i.major i.minor i.access
    match step.1 with
    | Except.error e => (Except.error e, step.2)
    | Except.ok _ =>
      let next := DevicesController.apply_rules c wr rest
      (next.1, step.2 ++ next.2)

/-- `DevicesController::apply`: extract the device sub-section of the policy
and process its rules in order. -/
def DevicesController.apply (c : DevicesController) (wr : WriteOracle)
    (res : Resources) : Except ErrorKind Unit × List WriteOp :=
  DevicesController.apply_rules c wr res.devices.devices

/-- The per-line collection of `allowed_devices`
(`.map(parse_device_line).collect()`): the first parse error aborts the
whole collection. -/
def collect_device_lines : List String → Except ErrorKind (List DeviceResource)
  | [] => Except.ok []
  | l :: ls =>
    match parse_device_line l true with
    | Except.error e => Except.error e
    | Except.ok r =>
      match collect_device_lines ls with
      | Except.error e => Except.error e
      | Except.ok rs => Except.ok (r :: rs)

/-- `DevicesController::allowed_devices` applied to the content of
`devices.list`: parse every line with `allow = true`, the first failure
aborting the whole call. -/
def DevicesController.allowed_devices (content : String) :
    Except ErrorKind (List DeviceResource) :=
  collect_device_lines (rust_lines content)

/-! ### Controllers, subsystems, and the unsafe downcast -/

/-- Modelled from the spec: the `Controllers` kind enumeration (§3), declared
in the crate's `mod.rs` which is not among the sources. -/
inductive Controllers where
  | Pids
  | Mem
  | CpuSet
  | CpuAcct
  | Cpu
  | Devices
  | Freezer
  | NetCls
  | BlkIo
  | PerfEvent
  | NetPrio
  | HugeTlb
  | Rdma
  | Systemd
deriving DecidableEq, Repr

/-- Modelled from the spec: each kind's canonical v1 mount-option tag
(`Controllers::to_string`, in the missing `mod.rs`); the v1 hierarchy matches
these against superblock options. -/
def Controllers.to_string : Controllers → String
  | Controllers.Pids => "pids"
  | Controllers.Mem => "memory"
  | Controllers.CpuSet => "cpuset"
  | Controllers.CpuAcct => "cpuacct"
  | Controllers.Cpu => "cpu"
  | Controllers.Devices => "devices"
  | Controllers.Freezer => "freezer"
  | Controllers.NetCls => "net_cls"
  | Controllers.BlkIo => "blkio"
  | Controllers.PerfEvent => "perf_event"
  | Controllers.NetPrio => "net_prio"
  | Controllers.HugeTlb => "hugetlb"
  | Controllers.Rdma => "rdma"
  | Controllers.Systemd => "name=systemd"

/-- Modelled from the spec: the `Subsystem` tagged union (§3, missing
`mod.rs`), one constructor per kind; each carries the arguments its
controller constructor receives in `hierarchies.rs` (mount point, mount
root, and for most kinds a unified-mode flag).  The devices arm carries the
fully embedded `DevicesController`. -/
inductive Subsystem where
  | Pid (point root : String) (v2 : Bool)
  | Mem (point root : String) (v2 : Bool)
  | CpuSet (point root : String) (v2 : Bool)
  | CpuAcct (point root : String)
  | Cpu (point root : String) (v2 : Bool)
  | Devices (c : DevicesController)
  | Freezer (point root : String) (v2 : Bool)
  | NetCls (point root : String)
  | BlkIo (point root : String) (v2 : Bool)
  | PerfEvent (point root : String)
  | NetPrio (point root : String)
  | HugeTlb (point root : String) (v2 : Bool)
  | Rdma (point root : String)
  | Systemd (point root : String) (v2 : Bool)
deriving DecidableEq, Repr

/-- A run-time fault: a Rust panic, or undefined behavior (reading
uninitialized memory). -/
inductive RtFault where
  | panicked
  | undefinedBehavior
deriving DecidableEq, Repr

/-- `assert_eq!(a, b)`: panics unless the two values are equal. -/
def assert_eq_nat (a b : Nat) : Except RtFault Unit :=
  if a = b then Except.ok () else Except.error RtFault.panicked

/-- `impl From<&Subsystem> for &DevicesController` from `devices.rs`: the
`Devices` arm returns its controller; every other arm runs
`assert_eq!(1, 0)` and then — were it reached — `MaybeUninit::uninit().
assume_init()`, modelled as the `undefinedBehavior` fault. -/
def DevicesController.from_subsystem (sub : Subsystem) :
    Except RtFault DevicesController :=
  match sub with
  | Subsystem.Devices c => Except.ok c
  | _ =>
    match assert_eq_nat 1 0 with
    | Except.error e => Except.error e
    | Except.ok _ => Except.error RtFault.undefinedBehavior

/-! ### Mount-info parsing (`hierarchies.rs`) -/

/-- `Mountinfo` from `hierarchies.rs` (paths as plain strings). -/
structure Mountinfo where
  mount_root : String
  mount_point : String
  fs_type : String × Option String
  super_opts : List String
deriving DecidableEq, Repr

/-- Rust `line.split(" - ")`: split a character list on the literal
three-character separator, leftmost-first, non-overlapping. -/
def splitDashSep : List Char → List (List Char)
  | ' ' :: '-' :: ' ' :: rest => [] :: splitDashSep rest
  | c :: cs =>
    match splitDashSep cs with
    | t :: ts => (c :: t) :: ts
    | [] => [[c]]
  | [] => [[]]

/-- `parse_mountinfo_for_line` from `hierarchies.rs`. -/
def parse_mountinfo_for_line (line : String) : Option Mountinfo :=
  let s_values := splitDashSep line.data
  match s_values with
  | [sv0, sv1] =>
    let s0_values := splitChars (fun c => c = ' ') (trimChars sv0)
    let s1_values := splitChars (fun c => c = ' ') (trimChars sv1)
    if s0_values.length < 6 ∨ s1_values.length < 3 then none
    else
      let mount_point := String.mk (s0_values.getD 4 [])
      let mount_root := String.mk (s0_values.getD 3 [])
      let fs_type_values := splitChars (fun c => c = '.') (trimChars (s1_values.getD 0 []))
      match fs_type_values with
      | [t] => some
          { mount_root := mount_root, mount_point := mount_point,
            fs_type := (String.mk t, none),
            super_opts := (splitChars (fun c => c = ',')
              (trimChars (s1_values.getD 2 []))).map String.mk }
      | [t, sub] => some
          { mount_root := mount_root, mount_point := mount_point,
            fs_type := (String.mk t, some (String.mk sub)),
            super_opts := (splitChars (fun c => c = ',')
              (trimChars (s1_values.getD 2 []))).map String.mk }
      | _ => none
  | _ => none

/-! ### The v1 (per-controller) hierarchy -/

/-- `V1` from `hierarchies.rs`: an immutable mount-table snapshot. -/
structure V1 where
  mountinfo : List Mountinfo
deriving DecidableEq, Repr

/-- `V1::get_mount_point`: find the first snapshot record of filesystem type
`cgroup` whose superblock options contain the controller's tag. -/
def V1.get_mount_point (h : V1) (controller : Controllers) :
    Option (String × String) :=
  h.mountinfo.findSome? (fun m =>
    if m.fs_type.1 = "cgroup" ∧ controller.to_string ∈ m.super_opts then
      some (m.mount_point, m.mount_root)
    else none)

/-- One conditional push of `V1::subsystems`. -/
def push_sub (o : Option (String × String)) (f : String → String → Subsystem) :
    List Subsystem :=
  match o with
  | some pr => [f pr.1 pr.2]
  | none => []

/-- `V1::subsystems`: one conditional push per kind, in the declaration
order of `hierarchies.rs` (block-I/O first, then memory, ...). -/
def V1.subsystems (h : V1) : List Subsystem :=
  push_sub (h.get_mount_point Controllers.BlkIo) (fun p r => Subsystem.BlkIo p r false)
  ++ push_sub (h.get_mount_point Controllers.Mem) (fun p r => Subsystem.Mem p r false)
  ++ push_sub (h.get_mount_point Controllers.Pids) (fun p r => Subsystem.Pid p r false)
  ++ push_sub (h.get_mount_point Controllers.CpuSet) (fun p r => Subsystem.CpuSet p r false)
  ++ push_sub (h.get_mount_point Controllers.CpuAcct) (fun p r => Subsystem.CpuAcct p r)
  ++ push_sub (h.get_mount_point Controllers.Cpu) (fun p r => Subsystem.Cpu p r false)
  ++ push_sub (h.get_mount_point Controllers.Devices)
      (fun p r => Subsystem.Devices (DevicesController.new p r))
  ++ push_sub (h.get_mount_point Controllers.Freezer) (fun p r => Subsystem.Freezer p r false)
  ++ push_sub (h.get_mount_point Controllers.NetCls) (fun p r => Subsystem.NetCls p r)
  ++ push_sub (h.get_mount_point Controllers.PerfEvent) (fun p r => Subsystem.PerfEvent p r)
  ++ push_sub (h.get_mount_point Controllers.NetPrio) (fun p r => Subsystem.NetPrio p r)
  ++ push_sub (h.get_mount_point Controllers.HugeTlb) (fun p r => Subsystem.HugeTlb p r false)
  ++ push_sub (h.get_mount_point Controllers.Rdma) (fun p r => Subsystem.Rdma p r)
  ++ push_sub (h.get_mount_point Controllers.Systemd) (fun p r => Subsystem.Systemd p r false)

/-! ### The v2 (unified) hierarchy -/

/-- `V2` from `hierarchies.rs`: the unified mount root. -/
structure V2 where
  root : String
deriving DecidableEq, Repr

/-- The token dispatch of `V2::subsystems`: the closed set of recognized
controller names, every other token silently ignored. -/
def v2_token_subsystem (root : String) (s : String) : Option Subsystem :=
  if s = "cpu" then some (Subsystem.Cpu root "" true)
  else if s = "io" then some (Subsystem.BlkIo root "" true)
  else if s = "cpuset" then some (Subsystem.CpuSet root "" true)
  else if s = "memory" then some (Subsystem.Mem root "" true)
  else if s = "pids" then some (Subsystem.Pid root "" true)
  else if s = "freezer" then some (Subsystem.Freezer root "" true)
  else if s = "hugetlb" then some (Subsystem.HugeTlb root "" true)
  else none

/-- The loop body of `V2::subsystems`: push the subsystem of a recognized
token, leave the accumulator unchanged otherwise. -/
def push_recognized (f : String → Option Subsystem) (subs : List Subsystem)
    (s : String) : List Subsystem :=
  match f s with
  | some sub => subs ++ [sub]
  | none => subs

/-- `V2::subsystems` applied to the outcome of reading `cgroup.controllers`
(`none` models an unreadable file): trim, split on single spaces, append the
literal token `"freezer"`, then push one subsystem per recognized token. -/
def V2.subsystems (h : V2) (content : Option String) : List Subsystem :=
  match content with
  | none => []
  | some ret =>
    let controllers := rust_trim ret
    let controller_list := rust_split_char ' ' controllers ++ ["freezer"]
    controller_list.foldl (push_recognized (v2_token_subsystem h.root)) []

/-! ### Observables used by the statements -/

/-- The single write a device rule gives rise to: target file selected by the
rule's `allow` flag, payload rendered by `device_rule_string`. -/
def device_write_op (r : DeviceResource) : WriteOp :=
  { file := if r.allow then "devices.allow" else "devices.deny",
    payload := device_rule_string r.devtype r.major r.minor r.access }

/-- Whether a subsystem entry is the block-I/O one. -/
def is_blkio_sub : Subsystem → Bool
  | Subsystem.BlkIo _ _ _ => true
  | _ => false

/-- Whether a subsystem entry is the memory one. -/
def is_mem_sub : Subsystem → Bool
  | Subsystem.Mem _ _ _ => true
  | _ => false

/-- Whether an `Except` value is a success. -/
def except_is_ok {ε α : Type} : Except ε α → Bool
  | Except.ok _ => true
  | Except.error _ => false

end CgFs

deriving instance DecidableEq for Except

namespace CgFs

/-! ## Helper lemmas: decimal digits of `Nat.repr` -/

theorem toDigitsCore_succ (f n : Nat) (ds : List Char) :
    Nat.toDigitsCore 10 (f + 1) n ds =
      if n / 10 = 0 then Nat.digitChar (n % 10) :: ds
      else Nat.toDigitsCore 10 f (n / 10) (Nat.digitChar (n % 10) :: ds) := by
  simp [Nat.toDigitsCore]

theorem toDigits_terminal (n : Nat) (h : n / 10 = 0) :
    Nat.toDigits 10 n = [Nat.digitChar (n % 10)] := by
  simp [Nat.toDigits, toDigitsCore_succ, h]

theorem toDigitsCore_eq_append (n : Nat) : ∀ (f : Nat) (ds : List Char), n < f →
    Nat.toDigitsCore 10 f n ds = Nat.toDigits 10 n ++ ds := by
  induction n using Nat.strong_induction_on with
  | _ n ih =>
    intro f ds hf
    match f with
    | 0 => exact absurd hf (Nat.not_lt_zero n)
    | g + 1 =>
      rw [toDigitsCore_succ]
      by_cases h10 : n / 10 = 0
      · simp [h10, toDigits_terminal n h10]
      · have hn : 0 < n := by
          rcases Nat.eq_zero_or_pos n with h | h
          · exact absurd (by simp [h]) h10
          · exact h
        have hdiv : n / 10 < n := Nat.div_lt_self hn (by norm_num)
        rw [if_neg h10]
        rw [ih (n / 10) hdiv g (Nat.digitChar (n % 10) :: ds) (by omega)]
        have hrhs : Nat.toDigits 10 n = Nat.toDigits 10 (n / 10) ++ [Nat.digitChar (n % 10)] := by
          rw [Nat.toDigits]
          have : n + 1 = n + 1 := rfl
          rw [show (n + 1) = (n) + 1 from rfl, toDigitsCore_succ, if_neg h10]
          exact ih (n / 10) hdiv n [Nat.digitChar (n % 10)] hdiv
        rw [hrhs]
        simp

theorem toDigits_step (n : Nat) (h : ¬ n / 10 = 0) :
    Nat.toDigits 10 n = Nat.toDigits 10 (n / 10) ++ [Nat.digitChar (n % 10)] := by
  have hn : 0 < n := by
    rcases Nat.eq_zero_or_pos n with h0 | h0
    · exact absurd (by simp [h0]) h
    · exact h0
  have hdiv : n / 10 < n := Nat.div_lt_self hn (by norm_num)
  rw [Nat.toDigits, toDigitsCore_succ, if_neg h]
  exact toDigitsCore_eq_append (n / 10) n [Nat.digitChar (n % 10)] hdiv

theorem digit_val_digitChar : ∀ m, m < 10 → digit_val (Nat.digitChar m) = m := by decide

theorem isDigit_digitChar : ∀ m, m < 10 → (Nat.digitChar m).isDigit = true := by decide

theorem toDigits_all_digits (n : Nat) : ∀ c ∈ Nat.toDigits 10 n, c.isDigit = true := by
  induction n using Nat.strong_induction_on with
  | _ n ih =>
    by_cases h10 : n / 10 = 0
    · rw [toDigits_terminal n h10]
      intro c hc
      simp only [List.mem_singleton] at hc
      subst hc
      exact isDigit_digitChar (n % 10) (Nat.mod_lt n (by norm_num))
    · have hn : 0 < n := by
        rcases Nat.eq_zero_or_pos n with h0 | h0
        · exact absurd (by simp [h0]) h10
        · exact h0
      rw [toDigits_step n h10]
      intro c hc
      rcases List.mem_append.mp hc with h | h
      · exact ih (n / 10) (Nat.div_lt_self hn (by norm_num)) c h
      · simp only [List.mem_singleton] at h
        subst h
        exact isDigit_digitChar (n % 10) (Nat.mod_lt n (by norm_num))

theorem toDigits_ne_nil (n : Nat) : Nat.toDigits 10 n ≠ [] := by
  by_cases h10 : n / 10 = 0
  · rw [toDigits_terminal n h10]; simp
  · rw [toDigits_step n h10]; simp

theorem toDigits_foldl (n : Nat) : ∀ acc : Nat,
    (Nat.toDigits 10 n).foldl (fun a c => a * 10 + digit_val c) acc =
      acc * 10 ^ (Nat.toDigits 10 n).length + n := by
  induction n using Nat.strong_induction_on with
  | _ n ih =>
    intro acc
    by_cases h10 : n / 10 = 0
    · rw [toDigits_terminal n h10]
      have hmod : n % 10 = n := by omega
      simp only [List.foldl_cons, List.foldl_nil, List.length_singleton, hmod]
      rw [digit_val_digitChar n (by omega)]
      ring
    · have hn : 0 < n := by
        rcases Nat.eq_zero_or_pos n with h0 | h0
        · exact absurd (by simp [h0]) h10
        · exact h0
      have hdiv : n / 10 < n := Nat.div_lt_self hn (by norm_num)
      rw [toDigits_step n h10]
      rw [List.foldl_append]
      rw [ih (n / 10) hdiv acc]
      simp only [List.foldl_cons, List.foldl_nil, List.length_append, List.length_singleton]
      rw [digit_val_digitChar (n % 10) (Nat.mod_lt n (by norm_num))]
      rw [pow_succ]
      have hdm : n / 10 * 10 + n % 10 = n := Nat.div_add_mod' n 10
      nlinarith [hdm]

theorem dec_digits_val_toDigits (n : Nat) :
    dec_digits_val (Nat.toDigits 10 n) = some n := by
  rcases hcs : Nat.toDigits 10 n with _ | ⟨c, cs⟩
  · exact absurd hcs (toDigits_ne_nil n)
  · have hall : (c :: cs).all Char.isDigit = true := by
      rw [← hcs, List.all_eq_true]
      exact toDigits_all_digits n
    have hfold : (c :: cs).foldl (fun a c => a * 10 + digit_val c) 0 =
        0 * 10 ^ (c :: cs).length + n := by
      rw [← hcs]
      exact toDigits_foldl n 0
    simp only [dec_digits_val, hall, if_pos, hfold]
    simp

theorem repr_data (n : Nat) : (Nat.repr n).data = Nat.toDigits 10 n := rfl

theorem toDigits_head_digit (n : Nat) (c : Char) (cs : List Char)
    (h : Nat.toDigits 10 n = c :: cs) : c.isDigit = true := by
  apply toDigits_all_digits n
  rw [h]; exact List.mem_cons_self c cs

theorem parse_i64_nat_repr (m : Nat) (hm : m ≤ I64_MAX) :
    parse_i64 (Nat.repr m) = some (m : Int) := by
  rcases hcs : Nat.toDigits 10 m with _ | ⟨c, cs⟩
  · exact absurd hcs (toDigits_ne_nil m)
  · have hd : c.isDigit = true := toDigits_head_digit m c cs hcs
    have hc1 : ¬ c = '-' := by rintro rfl; simp [Char.isDigit] at hd
    have hc2 : ¬ c = '+' := by rintro rfl; simp [Char.isDigit] at hd
    have hdata : (Nat.repr m).data = c :: cs := by rw [repr_data, hcs]
    simp only [parse_i64, hdata]
    rw [if_neg hc1, if_neg hc2]
    rw [← hcs, dec_digits_val_toDigits m]
    simp [hm]

theorem parse_i64_int_repr (v : Int) (h1 : -(2 ^ 63 : Int) ≤ v) (h2 : v ≤ 2 ^ 63 - 1) :
    parse_i64 (Int.repr v) = some v := by
  match v with
  | Int.ofNat m =>
    have hm : m ≤ I64_MAX := by
      rw [I64_MAX]
      have : (m : Int) ≤ 2 ^ 63 - 1 := h2
      omega
    rw [Int.repr]
    exact parse_i64_nat_repr m hm
  | Int.negSucc m =>
    have hm : m + 1 ≤ I64_MIN_ABS := by
      rw [I64_MIN_ABS]
      rw [Int.negSucc_eq] at h1
      omega
    rw [Int.repr]
    have hdata : ("-" ++ Nat.repr (Nat.succ m)).data = '-' :: Nat.toDigits 10 (m + 1) := by
      rw [String.data_append, repr_data]
      rfl
    simp only [parse_i64, hdata, if_true]
    rw [dec_digits_val_toDigits (m + 1)]
    simp only [if_pos hm]
    rw [Int.negSucc_eq]
    push_cast
    ring_nf

end CgFs
namespace CgFs

/-! ## Helper lemmas: permission decoding -/

theorem string_mk_data (s : String) : String.mk s.data = s := rfl

theorem from_char_rwm (c : Char) (h : c = 'r' ∨ c = 'w' ∨ c = 'm') :
    ∃ p, DevicePermissions.from_char c = some p ∧ DevicePermissions.to_char p = c := by
  rcases h with rfl | rfl | rfl
  · exact ⟨DevicePermissions.Read, rfl, rfl⟩
  · exact ⟨DevicePermissions.Write, rfl, rfl⟩
  · exact ⟨DevicePermissions.MkNod, rfl, rfl⟩

theorem from_char_not_rwm (c : Char) (h : ¬(c = 'r' ∨ c = 'w' ∨ c = 'm')) :
    DevicePermissions.from_char c = none := by
  unfold DevicePermissions.from_char
  split
  · exact absurd (Or.inl rfl) h
  · exact absurd (Or.inr (Or.inl rfl)) h
  · exact absurd (Or.inr (Or.inr rfl)) h
  · rfl

theorem from_chars_ok (cs : List Char) (h : ∀ c ∈ cs, c = 'r' ∨ c = 'w' ∨ c = 'm') :
    ∃ ps, DevicePermissions.from_chars cs = Except.ok ps ∧
      ps.map DevicePermissions.to_char = cs := by
  induction cs with
  | nil => exact ⟨[], rfl, rfl⟩
  | cons c cs ih =>
    obtain ⟨p, hp, hpc⟩ := from_char_rwm c (h c (List.mem_cons_self c cs))
    obtain ⟨ps, hps, hmap⟩ := ih (fun x hx => h x (List.mem_cons_of_mem c hx))
    refine ⟨p :: ps, ?_, ?_⟩
    · rw [DevicePermissions.from_chars, hp, hps]
    · simp [hmap, hpc]

theorem from_chars_err (cs : List Char) (h : ∃ c ∈ cs, ¬(c = 'r' ∨ c = 'w' ∨ c = 'm')) :
    DevicePermissions.from_chars cs = Except.error ErrorKind.parseError := by
  induction cs with
  | nil => simp at h
  | cons c cs ih =>
    by_cases hc : c = 'r' ∨ c = 'w' ∨ c = 'm'
    · obtain ⟨p, hp, _⟩ := from_char_rwm c hc
      have hex : ∃ x ∈ cs, ¬(x = 'r' ∨ x = 'w' ∨ x = 'm') := by
        rcases h with ⟨x, hx, hxn⟩
        rcases List.mem_cons.mp hx with rfl | hx2
        · exact absurd hc hxn
        · exact ⟨x, hx2, hxn⟩
      rw [DevicePermissions.from_chars, hp, ih hex]
    · rw [DevicePermissions.from_chars, from_char_not_rwm c hc]

/-- C9: the device character codecs round-trip: `from_char ∘ to_char` is the
identity on `DeviceType`, `from_char` rejects `none` and every character
outside `{a, c, b}`; `from_str` succeeds exactly on strings over `{r, w, m}`
(including the empty string), re-encoding reproduces the original characters
in order, and any string with a character outside `{r, w, m}` fails with
`ParseError`. -/
theorem c9_codec_roundtrip :
    (∀ t : DeviceType, DeviceType.from_char (some (DeviceType.to_char t)) = some t) ∧
    DeviceType.from_char none = none ∧
    (∀ c : Char, ¬(c = 'a' ∨ c = 'c' ∨ c = 'b') →
      DeviceType.from_char (some c) = none) ∧
    (∀ s : String, (∀ c ∈ s.data, c = 'r' ∨ c = 'w' ∨ c = 'm') →
      ∃ ps, DevicePermissions.from_str s = Except.ok ps ∧
        String.mk (ps.map DevicePermissions.to_char) = s) ∧
    (∀ s : String, (∃ c ∈ s.data, ¬(c = 'r' ∨ c = 'w' ∨ c = 'm')) →
      DevicePermissions.from_str s = Except.error ErrorKind.parseError) := by
  refine ⟨?_, rfl, ?_, ?_, ?_⟩
  · intro t; cases t <;> rfl
  · intro c h
    unfold DeviceType.from_char
    split
    · simp_all
    · simp_all
    · simp_all
    · rfl
  · intro s h
    rw [DevicePermissions.from_str]
    by_cases hs : s.data = []
    · refine ⟨[], by rw [if_pos hs], ?_⟩
      rw [show ([] : List DevicePermissions).map DevicePermissions.to_char = [] from rfl, ← hs]
    · rw [if_neg hs]
      obtain ⟨ps, hps, hmap⟩ := from_chars_ok s.data h
      exact ⟨ps, hps, by rw [hmap]⟩
  · intro s h
    rw [DevicePermissions.from_str]
    have hs : ¬ s.data = [] := by
      rcases h with ⟨c, hc, _⟩
      intro hnil
      rw [hnil] at hc
      simp at hc
    rw [if_neg hs]
    exact from_chars_err s.data h

/-- Witness for C9 at concrete inputs: `'x'` decodes to nothing, `"rwm"`
round-trips, `"rxw"` fails. -/
theorem c9_codec_roundtrip_witness :
    DeviceType.from_char (some 'x') = none ∧
    (∃ ps, DevicePermissions.from_str "rwm" = Except.ok ps ∧
      String.mk (ps.map DevicePermissions.to_char) = "rwm") ∧
    DevicePermissions.from_str "rxw" = Except.error ErrorKind.parseError := by
  refine ⟨?_, ?_, ?_⟩
  · exact c9_codec_roundtrip.2.2.1 'x' (by decide)
  · exact c9_codec_roundtrip.2.2.2.1 "rwm" (by decide)
  · exact c9_codec_roundtrip.2.2.2.2 "rxw" (by decide)

end CgFs
namespace CgFs

/-! ## Helper lemmas: `Int.repr` never collides with the wildcard token -/

theorem int_repr_ne_star (v : Int) : Int.repr v ≠ "*" := by
  intro h
  have hdata := congrArg String.data h
  match v with
  | Int.ofNat m =>
    rw [Int.repr] at hdata
    rw [repr_data] at hdata
    have hmem : '*' ∈ Nat.toDigits 10 m := by
      rw [hdata]
      exact List.mem_cons_self '*' []
    have := toDigits_all_digits m '*' hmem
    simp [Char.isDigit] at this
  | Int.negSucc m =>
    rw [Int.repr] at hdata
    rw [String.data_append] at hdata
    have : '-' :: (Nat.repr (Nat.succ m)).data = ['*'] := hdata
    simp at this

/-- C10: the wildcard sentinel is exact equality with `-1`: every other
`i64` value `v` — other negatives such as `-2` included — renders as its
decimal string, `parse_device_number` maps that string back to `v` and maps
`"*"` to `-1`, so the render-then-parse round trip is the identity on the
whole `i64` range. -/
theorem c10_wildcard_sentinel (v : Int)
    (h1 : -(2 ^ 63 : Int) ≤ v) (h2 : v ≤ 2 ^ 63 - 1) :
    (v ≠ -1 → device_number_string v = Int.repr v ∧
      parse_device_number (Int.repr v) = Except.ok v) ∧
    parse_device_number (device_number_string v) = Except.ok v ∧
    parse_device_number "*" = Except.ok (-1) := by
  have hparse : v ≠ -1 → parse_device_number (Int.repr v) = Except.ok v := by
    intro _
    rw [parse_device_number, if_neg (int_repr_ne_star v)]
    rw [parse_i64_int_repr v h1 h2]
  refine ⟨fun hne => ⟨?_, hparse hne⟩, ?_, rfl⟩
  · rw [device_number_string, if_neg hne]
  · by_cases hne : v = -1
    · subst hne
      rfl
    · rw [device_number_string, if_neg hne]
      exact hparse hne

/-- Witness for C10 at `v = -2`: renders as `"-2"`, parses back to `-2`. -/
theorem c10_wildcard_sentinel_witness :
    (device_number_string (-2) = Int.repr (-2) ∧
      parse_device_number (Int.repr (-2)) = Except.ok (-2)) ∧
    parse_device_number (device_number_string (-2)) = Except.ok (-2) ∧
    parse_device_number "*" = Except.ok (-1) := by
  have h := c10_wildcard_sentinel (-2) (by decide) (by decide)
  exact ⟨h.1 (by decide), h.2⟩

end CgFs
namespace CgFs

/-- C1: `allow_device` (resp. `deny_device`) attempts exactly one write, to
`devices.allow` (resp. `devices.deny`), whose payload is exactly
`"<type-char> <major>:<minor> <perms>"`, major/minor rendering as `*` when
`-1` and as the decimal integer otherwise, and the permission characters
following the order of the given list; in particular the payload for
(Char, 1, 6, [Read]) is `"c 1:6 r"`, and the kernel list line `"c 1:6 r"`
parses back to the corresponding all-allowed resource. -/
theorem c1_write_payload :
    (∀ (c : DevicesController) (wr : WriteOracle) (t : DeviceType)
       (major minor : Int) (ps : List DevicePermissions),
       (c.allow_device wr t major minor ps).2 =
         [⟨"devices.allow", device_rule_string t major minor ps⟩] ∧
       (c.deny_device wr t major minor ps).2 =
         [⟨"devices.deny", device_rule_string t major minor ps⟩]) ∧
    (∀ (t : DeviceType) (major minor : Int) (ps : List DevicePermissions),
       device_rule_string t major minor ps =
         String.singleton (DeviceType.to_char t) ++ " " ++
           (if major = -1 then "*" else Int.repr major) ++ ":" ++
           (if minor = -1 then "*" else Int.repr minor) ++ " " ++
           String.mk (ps.map DevicePermissions.to_char)) ∧
    device_rule_string DeviceType.Char 1 6 [DevicePermissions.Read] = "c 1:6 r" ∧
    parse_device_line "c 1:6 r" true =
      Except.ok { allow := true, devtype := DeviceType.Char, major := 1,
                  minor := 6, access := [DevicePermissions.Read] } := by
  refine ⟨?_, fun t major minor ps => rfl, by decide, by decide⟩
  intro c wr t major minor ps
  constructor
  · rw [DevicesController.allow_device]
    by_cases hw : wr ⟨"devices.allow", device_rule_string t major minor ps⟩
    · simp [hw]
    · simp [hw]
  · rw [DevicesController.deny_device]
    by_cases hw : wr ⟨"devices.deny", device_rule_string t major minor ps⟩
    · simp [hw]
    · simp [hw]

end CgFs
namespace CgFs

/-! ## Helper lemmas: the apply loop -/

theorem device_step_eq (c : DevicesController) (wr : WriteOracle) (r : DeviceResource) :
    (if r.allow then c.allow_device wr r.devtype r.major r.minor r.access
     else c.deny_device wr r.devtype r.major r.minor r.access) =
      if wr (device_write_op r) then (Except.ok (), [device_write_op r])
      else (Except.error (ErrorKind.writeFailed
              (path_join c.path (device_write_op r).file) (device_write_op r).payload),
            [device_write_op r]) := by
  cases hr : r.allow
  · simp [DevicesController.deny_device, device_write_op, hr]
  · simp [DevicesController.allow_device, device_write_op, hr]

theorem apply_rules_all_ok (c : DevicesController) (wr : WriteOracle) :
    ∀ rules : List DeviceResource,
      (∀ r ∈ rules, wr (device_write_op r) = true) →
      c.apply_rules wr rules = (Except.ok (), rules.map device_write_op) := by
  intro rules
  induction rules with
  | nil => intro _; rfl
  | cons r rest ih =>
    intro h
    rw [DevicesController.apply_rules, device_step_eq,
      if_pos (h r (List.mem_cons_self r rest))]
    rw [ih (fun x hx => h x (List.mem_cons_of_mem r hx))]
    simp

theorem apply_rules_first_fail (c : DevicesController) (wr : WriteOracle) :
    ∀ (pre : List DeviceResource) (fail : DeviceResource) (post : List DeviceResource),
      (∀ r ∈ pre, wr (device_write_op r) = true) →
      wr (device_write_op fail) = false →
      c.apply_rules wr (pre ++ fail :: post) =
        (Except.error (ErrorKind.writeFailed
            (path_join c.path (device_write_op fail).file) (device_write_op fail).payload),
         pre.map device_write_op ++ [device_write_op fail]) := by
  intro pre fail post
  induction pre with
  | nil =>
    intro _ hfail
    rw [List.nil_append, DevicesController.apply_rules, device_step_eq]
    rw [if_neg (by rw [hfail]; exact Bool.false_ne_true)]
    rfl
  | cons r rest ih =>
    intro h hfail
    rw [List.cons_append, DevicesController.apply_rules, device_step_eq,
      if_pos (h r (List.mem_cons_self r rest))]
    rw [ih (fun x hx => h x (List.mem_cons_of_mem r hx)) hfail]
    simp

/-- C2: `apply` processes the policy's device rules in their given order
without reordering or deduplication; the first failing write aborts with its
`WriteFailed` error and later rules are not issued; an empty rule sequence
performs no I/O and succeeds. -/
theorem c2_apply_order (c : DevicesController) (wr : WriteOracle) (res : Resources) :
    (res.devices.devices = [] → c.apply wr res = (Except.ok (), [])) ∧
    ((∀ r ∈ res.devices.devices, wr (device_write_op r) = true) →
      c.apply wr res = (Except.ok (), res.devices.devices.map device_write_op)) ∧
    (∀ pre fail post, res.devices.devices = pre ++ fail :: post →
      (∀ r ∈ pre, wr (device_write_op r) = true) →
      wr (device_write_op fail) = false →
      c.apply wr res =
        (Except.error (ErrorKind.writeFailed
            (path_join c.path (device_write_op fail).file) (device_write_op fail).payload),
         pre.map device_write_op ++ [device_write_op fail])) := by
  refine ⟨?_, ?_, ?_⟩
  · intro h
    rw [DevicesController.apply, h]
    rfl
  · intro h
    rw [DevicesController.apply]
    exact apply_rules_all_ok c wr res.devices.devices h
  · intro pre fail post hsplit hpre hfail
    rw [DevicesController.apply, hsplit]
    exact apply_rules_first_fail c wr pre fail post hpre hfail

/-- Witness for C2 at concrete inputs: an empty policy succeeds with no
writes; a two-rule policy with a succeeding oracle issues both writes in
order; with an oracle failing on the second payload, only the first two
attempts appear and the reported error carries that payload. -/
theorem c2_apply_order_witness :
    ((DevicesController.new "/cg/x" "/cg").apply (fun _ => true)
        ⟨⟨[]⟩⟩ = (Except.ok (), [])) ∧
    ((DevicesController.new "/cg/x" "/cg").apply (fun _ => true)
        ⟨⟨[⟨true, DeviceType.Char, 1, 6, [DevicePermissions.Read]⟩,
           ⟨false, DeviceType.Block, 8, 0, [DevicePermissions.Write]⟩]⟩⟩ =
      (Except.ok (), [⟨"devices.allow", "c 1:6 r"⟩, ⟨"devices.deny", "b 8:0 w"⟩])) ∧
    ((DevicesController.new "/cg/x" "/cg").apply (fun op => op.payload ≠ "b 8:0 w")
        ⟨⟨[⟨true, DeviceType.Char, 1, 6, [DevicePermissions.Read]⟩,
           ⟨false, DeviceType.Block, 8, 0, [DevicePermissions.Write]⟩,
           ⟨true, DeviceType.All, -1, -1, []⟩]⟩⟩ =
      (Except.error (ErrorKind.writeFailed "/cg/x/devices.deny" "b 8:0 w"),
       [⟨"devices.allow", "c 1:6 r"⟩, ⟨"devices.deny", "b 8:0 w"⟩])) := by
  refine ⟨?_, ?_, ?_⟩
  · exact (c2_apply_order (DevicesController.new "/cg/x" "/cg") (fun _ => true) ⟨⟨[]⟩⟩).1 rfl
  · have h := (c2_apply_order (DevicesController.new "/cg/x" "/cg") (fun _ => true)
      ⟨⟨[⟨true, DeviceType.Char, 1, 6, [DevicePermissions.Read]⟩,
         ⟨false, DeviceType.Block, 8, 0, [DevicePermissions.Write]⟩]⟩⟩).2.1
      (by intro r _; rfl)
    rw [h]
    decide
  · have h := (c2_apply_order (DevicesController.new "/cg/x" "/cg")
      (fun op => op.payload ≠ "b 8:0 w")
      ⟨⟨[⟨true, DeviceType.Char, 1, 6, [DevicePermissions.Read]⟩,
         ⟨false, DeviceType.Block, 8, 0, [DevicePermissions.Write]⟩,
         ⟨true, DeviceType.All, -1, -1, []⟩]⟩⟩).2.2
      [⟨true, DeviceType.Char, 1, 6, [DevicePermissions.Read]⟩]
      ⟨false, DeviceType.Block, 8, 0, [DevicePermissions.Write]⟩
      [⟨true, DeviceType.All, -1, -1, []⟩]
      rfl (by decide) (by decide)
    rw [h]
    decide

end CgFs
namespace CgFs

/-- C8: extracting the devices controller from a `Devices`-tagged subsystem
always succeeds and returns that controller; extraction from any other tag
is signaled as a panic (the `assert_eq!(1, 0)` fires first), and the
undefined-behavior branch (`assume_init` on uninitialized memory) is never
reached. -/
theorem c8_subsystem_downcast :
    (∀ c : DevicesController,
      DevicesController.from_subsystem (Subsystem.Devices c) = Except.ok c) ∧
    (∀ s : Subsystem, (∀ c, s ≠ Subsystem.Devices c) →
      DevicesController.from_subsystem s = Except.error RtFault.panicked) ∧
    (∀ s : Subsystem,
      DevicesController.from_subsystem s ≠ Except.error RtFault.undefinedBehavior) := by
  refine ⟨fun c => rfl, ?_, ?_⟩
  · intro s h
    cases s
    case Devices c => exact absurd rfl (h c)
    all_goals rfl
  · intro s
    cases s <;> simp [DevicesController.from_subsystem, assert_eq_nat]

/-- Witness for C8: a mismatched extraction (from a CPU subsystem) panics. -/
theorem c8_subsystem_downcast_witness :
    DevicesController.from_subsystem (Subsystem.Cpu "/sys/fs/cgroup" "" false) =
      Except.error RtFault.panicked := by
  exact c8_subsystem_downcast.2.1 (Subsystem.Cpu "/sys/fs/cgroup" "" false)
    (fun c h => by injection h)

end CgFs
namespace CgFs

/-! ## Helper lemmas: conditional-push folds -/

theorem foldl_push_filterMap (f : String → Option Subsystem) :
    ∀ (l : List String) (acc : List Subsystem),
      l.foldl (push_recognized f) acc = acc ++ l.filterMap f := by
  intro l
  induction l with
  | nil => intro acc; simp
  | cons x xs ih =>
    intro acc
    rw [List.foldl_cons, List.filterMap_cons]
    cases hfx : f x
    · rw [show push_recognized f acc x = acc by rw [push_recognized, hfx]]
      rw [ih acc]
    · rw [show push_recognized f acc x = acc ++ [_] by rw [push_recognized, hfx]]
      rw [ih (acc ++ [_])]
      simp

/-- C4: the v2 hierarchy's `subsystems` returns the empty list when
`cgroup.controllers` is unreadable; otherwise it splits the trimmed content
on single spaces, unconditionally appends the token `"freezer"`, keeps one
subsystem per recognized token of the closed set
{cpu, io, cpuset, memory, pids, freezer, hugetlb} in file order — every
other token silently ignored — with the synthesized freezer entry last. -/
theorem c4_v2_subsystems (h : V2) :
    h.subsystems none = [] ∧
    (∀ content : String, h.subsystems (some content) =
      (rust_split_char ' ' (rust_trim content)).filterMap (v2_token_subsystem h.root) ++
        [Subsystem.Freezer h.root "" true]) ∧
    (∀ s : String,
      s ∉ (["cpu", "io", "cpuset", "memory", "pids", "freezer", "hugetlb"] : List String) →
      v2_token_subsystem h.root s = none) ∧
    v2_token_subsystem h.root "cpu" = some (Subsystem.Cpu h.root "" true) ∧
    v2_token_subsystem h.root "io" = some (Subsystem.BlkIo h.root "" true) ∧
    v2_token_subsystem h.root "cpuset" = some (Subsystem.CpuSet h.root "" true) ∧
    v2_token_subsystem h.root "memory" = some (Subsystem.Mem h.root "" true) ∧
    v2_token_subsystem h.root "pids" = some (Subsystem.Pid h.root "" true) ∧
    v2_token_subsystem h.root "freezer" = some (Subsystem.Freezer h.root "" true) ∧
    v2_token_subsystem h.root "hugetlb" = some (Subsystem.HugeTlb h.root "" true) := by
  refine ⟨rfl, ?_, ?_, rfl, rfl, rfl, rfl, rfl, rfl, rfl⟩
  · intro content
    rw [V2.subsystems]
    rw [foldl_push_filterMap (v2_token_subsystem h.root)
      (rust_split_char ' ' (rust_trim content) ++ ["freezer"]) []]
    rw [List.filterMap_append]
    rfl
  · intro s hs
    rw [v2_token_subsystem]
    simp only [List.mem_cons, List.mem_singleton] at hs
    push_neg at hs
    obtain ⟨h1, h2, h3, h4, h5, h6, h7⟩ := hs
    rw [if_neg h1, if_neg h2, if_neg h3, if_neg h4, if_neg h5, if_neg h6, if_neg h7.1]

/-- Witness for C4 at concrete inputs: an unrecognized token is ignored and
the synthesized freezer entry comes last. -/
theorem c4_v2_subsystems_witness :
    (V2.mk "/sys/fs/cgroup").subsystems (some "cpu io bogus memory") =
      [Subsystem.Cpu "/sys/fs/cgroup" "" true,
       Subsystem.BlkIo "/sys/fs/cgroup" "" true,
       Subsystem.Mem "/sys/fs/cgroup" "" true,
       Subsystem.Freezer "/sys/fs/cgroup" "" true] ∧
    v2_token_subsystem "/sys/fs/cgroup" "bogus" = none := by
  constructor
  · rw [(c4_v2_subsystems (V2.mk "/sys/fs/cgroup")).2.1 "cpu io bogus memory"]
    decide
  · exact (c4_v2_subsystems (V2.mk "/sys/fs/cgroup")).2.2.1 "bogus" (by decide)

end CgFs
namespace CgFs

/-! ## Helper lemmas: device-list parsing -/

theorem except_ok_exists {ε α : Type} (e : Except ε α)
    (h : except_is_ok e = true) : ∃ a, e = Except.ok a := by
  cases e
  · simp [except_is_ok] at h
  · exact ⟨_, rfl⟩

theorem except_err_exists {ε α : Type} (e : Except ε α)
    (h : except_is_ok e = false) : ∃ x, e = Except.error x := by
  cases e
  · exact ⟨_, rfl⟩
  · simp [except_is_ok] at h

theorem parse_device_number_err (s : String) (e : ErrorKind)
    (h : parse_device_number s = Except.error e) : e = ErrorKind.parseError := by
  rw [parse_device_number] at h
  split at h
  · exact absurd h (by simp)
  · split at h
    · exact absurd h (by simp)
    · injection h with h2
      exact h2.symm

theorem from_chars_err_kind :
    ∀ (cs : List Char) (e : ErrorKind),
      DevicePermissions.from_chars cs = Except.error e → e = ErrorKind.parseError := by
  intro cs
  induction cs with
  | nil => intro e h; exact absurd h (by rw [DevicePermissions.from_chars]; simp)
  | cons c cs ih =>
    intro e h
    rw [DevicePermissions.from_chars] at h
    split at h
    · injection h with h2; exact h2.symm
    · split at h
      · injection h with h2
        subst h2
        exact ih _ (by assumption)
      · exact absurd h (by simp)

theorem from_str_err_kind (s : String) (e : ErrorKind)
    (h : DevicePermissions.from_str s = Except.error e) : e = ErrorKind.parseError := by
  rw [DevicePermissions.from_str] at h
  split at h
  · exact absurd h (by simp)
  · exact from_chars_err_kind s.data e h

theorem parse_device_line_err (l : String) (a : Bool) (e : ErrorKind)
    (h : parse_device_line l a = Except.error e) : e = ErrorKind.parseError := by
  rw [parse_device_line] at h
  split at h
  · injection h with h2; exact h2.symm
  · split at h
    · injection h with h2; exact h2.symm
    · split at h
      · injection h with h2
        subst h2
        exact parse_device_number_err _ _ (by assumption)
      · split at h
        · injection h with h2
          subst h2
          exact parse_device_number_err _ _ (by assumption)
        · split at h
          · injection h with h2
            subst h2
            exact from_str_err_kind _ _ (by assumption)
          · exact absurd h (by simp)

theorem parse_device_line_ok (l : String) (a : Bool) (r : DeviceResource)
    (h : parse_device_line l a = Except.ok r) :
    r.allow = a ∧ (rust_split_space_colon l).length = 4 := by
  rw [parse_device_line] at h
  split at h
  · exact absurd h (by simp)
  · refine ⟨?_, by omega⟩
    split at h
    · exact absurd h (by simp)
    · split at h
      · exact absurd h (by simp)
      · split at h
        · exact absurd h (by simp)
        · split at h
          · exact absurd h (by simp)
          · injection h with h2
            rw [← h2]

theorem collect_device_lines_ok (ls : List String)
    (h : ∀ l ∈ ls, except_is_ok (parse_device_line l true) = true) :
    ∃ rs, collect_device_lines ls = Except.ok rs ∧ ∀ r ∈ rs, r.allow = true := by
  induction ls with
  | nil => exact ⟨[], rfl, by simp⟩
  | cons l ls ih =>
    obtain ⟨r, hr⟩ := except_ok_exists _ (h l (List.mem_cons_self l ls))
    obtain ⟨rs, hrs, hall⟩ := ih (fun x hx => h x (List.mem_cons_of_mem l hx))
    refine ⟨r :: rs, ?_, ?_⟩
    · rw [collect_device_lines, hr, hrs]
    · intro x hx
      rcases List.mem_cons.mp hx with rfl | hx2
      · exact (parse_device_line_ok l true x hr).1
      · exact hall x hx2

theorem collect_device_lines_err (ls : List String)
    (h : ∃ l ∈ ls, except_is_ok (parse_device_line l true) = false) :
    collect_device_lines ls = Except.error ErrorKind.parseError := by
  induction ls with
  | nil => simp at h
  | cons l ls ih =>
    by_cases hl : except_is_ok (parse_device_line l true) = true
    · obtain ⟨r, hr⟩ := except_ok_exists _ hl
      have hex : ∃ x ∈ ls, except_is_ok (parse_device_line x true) = false := by
        rcases h with ⟨x, hx, hxf⟩
        rcases List.mem_cons.mp hx with rfl | hx2
        · rw [hl] at hxf; exact absurd hxf (by simp)
        · exact ⟨x, hx2, hxf⟩
      rw [collect_device_lines, hr, ih hex]
    · obtain ⟨e, he⟩ := except_err_exists _ (by simpa using hl)
      have := parse_device_line_err l true e he
      subst this
      rw [collect_device_lines, he]

theorem from_str_ok_iff (s : String) :
    except_is_ok (DevicePermissions.from_str s) = true ↔
      ∀ c ∈ s.data, c = 'r' ∨ c = 'w' ∨ c = 'm' := by
  constructor
  · intro h c hc
    by_contra hbad
    have := from_chars_err s.data ⟨c, hc, hbad⟩
    rw [DevicePermissions.from_str] at h
    split at h
    · rename_i hnil
      rw [hnil] at hc
      simp at hc
    · rw [this] at h
      simp [except_is_ok] at h
  · intro h
    rw [DevicePermissions.from_str]
    split
    · rfl
    · obtain ⟨ps, hps, _⟩ := from_chars_ok s.data h
      rw [hps]
      rfl

theorem parse_device_line_ok_iff (l : String) (a : Bool) :
    except_is_ok (parse_device_line l a) = true ↔
      ((rust_split_space_colon l).length = 4 ∧
       (DeviceType.from_char ((rust_split_space_colon l).getD 0 "").data.head?).isSome = true ∧
       except_is_ok (parse_device_number ((rust_split_space_colon l).getD 1 "")) = true ∧
       except_is_ok (parse_device_number ((rust_split_space_colon l).getD 2 "")) = true ∧
       (∀ c ∈ ((rust_split_space_colon l).getD 3 "").data, c = 'r' ∨ c = 'w' ∨ c = 'm')) := by
  rw [parse_device_line]
  split
  · rename_i h4
    simp only [except_is_ok]
    constructor
    · intro h; exact absurd h (by simp)
    · intro h; exact absurd h.1 h4
  · rename_i h4
    have h4e : (rust_split_space_colon l).length = 4 := by omega
    cases hdt : DeviceType.from_char ((rust_split_space_colon l).getD 0 "").data.head?
    · simp only [except_is_ok, hdt]
      constructor
      · intro h; exact absurd h (by simp)
      · intro h
        simp at h
    · cases hmaj : parse_device_number ((rust_split_space_colon l).getD 1 "")
      · simp only [except_is_ok, hdt, hmaj]
        constructor
        · intro h; exact absurd h (by simp)
        · intro h
          simp at h
      · cases hmin : parse_device_number ((rust_split_space_colon l).getD 2 "")
        · simp only [except_is_ok, hdt, hmaj, hmin]
          constructor
          · intro h; exact absurd h (by simp)
          · intro h
            simp at h
        · cases hps : DevicePermissions.from_str ((rust_split_space_colon l).getD 3 "")
          · simp only [except_is_ok, hdt, hmaj, hmin, hps]
            constructor
            · intro h; exact absurd h (by simp)
            · intro h
              have := (from_str_ok_iff _).mpr h.2.2.2.2
              rw [hps] at this
              simp [except_is_ok] at this
          · simp only [except_is_ok, hdt, hmaj, hmin, hps]
            constructor
            · intro _
              refine ⟨h4e, by simp, by simp, by simp, ?_⟩
              exact (from_str_ok_iff _).mp (by rw [hps]; rfl)
            · intro _
              trivial

/-- C3: `allowed_devices` parses every line of `devices.list` independently
by splitting on both space and colon into exactly 4 tokens; a single failing
line — wrong token count, unknown type character, bad major/minor token, or
a permission character outside {r, w, m} — makes the whole call return
`ParseError` with no partial result; on success every resource has
`allow = true`, and an empty fourth token yields an empty permission set
rather than an error. -/
theorem c3_allowed_devices (content : String) :
    ((∀ l ∈ rust_lines content, except_is_ok (parse_device_line l true) = true) →
      ∃ rs, DevicesController.allowed_devices content = Except.ok rs ∧
        ∀ r ∈ rs, r.allow = true) ∧
    ((∃ l ∈ rust_lines content, except_is_ok (parse_device_line l true) = false) →
      DevicesController.allowed_devices content = Except.error ErrorKind.parseError) ∧
    (∀ (l : String) (a : Bool) (r : DeviceResource),
      parse_device_line l a = Except.ok r →
      r.allow = a ∧ (rust_split_space_colon l).length = 4) ∧
    (∀ (l : String) (a : Bool),
      except_is_ok (parse_device_line l a) = true ↔
        ((rust_split_space_colon l).length = 4 ∧
         (DeviceType.from_char ((rust_split_space_colon l).getD 0 "").data.head?).isSome = true ∧
         except_is_ok (parse_device_number ((rust_split_space_colon l).getD 1 "")) = true ∧
         except_is_ok (parse_device_number ((rust_split_space_colon l).getD 2 "")) = true ∧
         (∀ c ∈ ((rust_split_space_colon l).getD 3 "").data, c = 'r' ∨ c = 'w' ∨ c = 'm'))) ∧
    (∀ (l t1 t2 t3 : String) (dt : DeviceType) (major minor : Int),
      rust_split_space_colon l = [t1, t2, t3, ""] →
      DeviceType.from_char t1.data.head? = some dt →
      parse_device_number t2 = Except.ok major →
      parse_device_number t3 = Except.ok minor →
      parse_device_line l true = Except.ok
        { allow := true, devtype := dt, major := major, minor := minor, access := [] }) := by
  refine ⟨?_, ?_, parse_device_line_ok, parse_device_line_ok_iff, ?_⟩
  · intro h
    exact collect_device_lines_ok (rust_lines content) h
  · intro h
    exact collect_device_lines_err (rust_lines content) h
  · intro l t1 t2 t3 dt major minor hsplit hdt hmaj hmin
    rw [parse_device_line, hsplit]
    rw [if_neg (by simp)]
    have : ([t1, t2, t3, ""].getD 0 "") = t1 := rfl
    rw [show ([t1, t2, t3, ""].getD 0 "") = t1 from rfl, hdt]
    rw [show ([t1, t2, t3, ""].getD 1 "") = t2 from rfl, hmaj]
    rw [show ([t1, t2, t3, ""].getD 2 "") = t3 from rfl, hmin]
    rfl

/-- Witness for C3 at concrete inputs: a good two-line list succeeds with
all-allow resources; one bad line poisons the whole call; the line
`"a *:* "` (empty permission token) parses to an empty permission set. -/
theorem c3_allowed_devices_witness :
    (∃ rs, DevicesController.allowed_devices "c 1:6 r\nb 8:0 rwm" = Except.ok rs ∧
      ∀ r ∈ rs, r.allow = true) ∧
    DevicesController.allowed_devices "c 1:6 r\nbogus line" =
      Except.error ErrorKind.parseError ∧
    parse_device_line "a *:* " true = Except.ok
      { allow := true, devtype := DeviceType.All, major := -1, minor := -1,
        access := [] } := by
  refine ⟨?_, ?_, ?_⟩
  · exact (c3_allowed_devices "c 1:6 r\nb 8:0 rwm").1 (by decide)
  · exact (c3_allowed_devices "c 1:6 r\nbogus line").2.1 ⟨"bogus line", by decide, by decide⟩
  · exact (c3_allowed_devices "a *:* ").2.2.2.2 "a *:* " "a" "*" "*"
      DeviceType.All (-1) (-1) (by decide) (by decide) (by decide) (by decide)

end CgFs
namespace CgFs

/-! ## Helper lemmas: mount-line parsing -/

theorem parse_mountinfo_some (line : String) (mi : Mountinfo)
    (h : parse_mountinfo_for_line line = some mi) :
    ∃ sv0 sv1, splitDashSep line.data = [sv0, sv1] ∧
      6 ≤ (splitChars (fun c => c = ' ') (trimChars sv0)).length ∧
      3 ≤ (splitChars (fun c => c = ' ') (trimChars sv1)).length ∧
      mi.mount_root =
        String.mk ((splitChars (fun c => c = ' ') (trimChars sv0)).getD 3 []) ∧
      mi.mount_point =
        String.mk ((splitChars (fun c => c = ' ') (trimChars sv0)).getD 4 []) ∧
      mi.super_opts = (splitChars (fun c => c = ',')
        (trimChars ((splitChars (fun c => c = ' ') (trimChars sv1)).getD 2 []))).map
          String.mk := by
  rw [parse_mountinfo_for_line] at h
  split at h
  case h_2 => exact absurd h (by simp)
  case h_1 sv0 sv1 hsplit =>
    refine ⟨sv0, sv1, hsplit, ?_⟩
    dsimp only at h
    split at h
    · exact absurd h (by simp)
    · rename_i hlen
      push_neg at hlen
      refine ⟨by omega, by omega, ?_⟩
      split at h
      · injection h with h2
        subst h2
        exact ⟨rfl, rfl, rfl⟩
      · injection h with h2
        subst h2
        exact ⟨rfl, rfl, rfl⟩
      · exact absurd h (by simp)

/-- C5: mount-line parsing yields a record only for lines splitting on the
literal `" - "` into exactly two segments, the trimmed first segment having
at least six space-separated fields (mount root = field 3, mount point =
field 4) and the trimmed second at least three (superblock options = field 2
split on commas); any shape violation returns `none`; and the documented
literal line parses to exactly the expected record. -/
theorem c5_mountinfo_shape (line : String) :
    (∀ mi, parse_mountinfo_for_line line = some mi →
      ∃ sv0 sv1, splitDashSep line.data = [sv0, sv1] ∧
        6 ≤ (splitChars (fun c => c = ' ') (trimChars sv0)).length ∧
        3 ≤ (splitChars (fun c => c = ' ') (trimChars sv1)).length ∧
        mi.mount_root =
          String.mk ((splitChars (fun c => c = ' ') (trimChars sv0)).getD 3 []) ∧
        mi.mount_point =
          String.mk ((splitChars (fun c => c = ' ') (trimChars sv0)).getD 4 []) ∧
        mi.super_opts = (splitChars (fun c => c = ',')
          (trimChars ((splitChars (fun c => c = ' ') (trimChars sv1)).getD 2 []))).map
            String.mk) ∧
    parse_mountinfo_for_line
        "29 26 0:26 / /sys/fs/cgroup/cpuset,cpu,cpuacct rw,nosuid,nodev,noexec,relatime shared:10 - cgroup cgroup rw,cpuset,cpu,cpuacct" =
      some { mount_root := "/", mount_point := "/sys/fs/cgroup/cpuset,cpu,cpuacct",
             fs_type := ("cgroup", none),
             super_opts := ["rw", "cpuset", "cpu", "cpuacct"] } := by
  exact ⟨fun mi => parse_mountinfo_some line mi, by decide⟩

/-- Witness for C5: the characterization applied to the documented literal
line. -/
theorem c5_mountinfo_shape_witness :
    ∃ sv0 sv1, splitDashSep
        ("29 26 0:26 / /sys/fs/cgroup/cpuset,cpu,cpuacct rw,nosuid,nodev,noexec,relatime shared:10 - cgroup cgroup rw,cpuset,cpu,cpuacct" : String).data =
        [sv0, sv1] ∧
      6 ≤ (splitChars (fun c => c = ' ') (trimChars sv0)).length ∧
      3 ≤ (splitChars (fun c => c = ' ') (trimChars sv1)).length ∧
      ("/" : String) =
        String.mk ((splitChars (fun c => c = ' ') (trimChars sv0)).getD 3 []) ∧
      ("/sys/fs/cgroup/cpuset,cpu,cpuacct" : String) =
        String.mk ((splitChars (fun c => c = ' ') (trimChars sv0)).getD 4 []) ∧
      (["rw", "cpuset", "cpu", "cpuacct"] : List String) =
        (splitChars (fun c => c = ',')
          (trimChars ((splitChars (fun c => c = ' ') (trimChars sv1)).getD 2 []))).map
            String.mk := by
  exact (c5_mountinfo_shape "29 26 0:26 / /sys/fs/cgroup/cpuset,cpu,cpuacct rw,nosuid,nodev,noexec,relatime shared:10 - cgroup cgroup rw,cpuset,cpu,cpuacct").1
    { mount_root := "/", mount_point := "/sys/fs/cgroup/cpuset,cpu,cpuacct",
      fs_type := ("cgroup", none), super_opts := ["rw", "cpuset", "cpu", "cpuacct"] }
    (c5_mountinfo_shape "29 26 0:26 / /sys/fs/cgroup/cpuset,cpu,cpuacct rw,nosuid,nodev,noexec,relatime shared:10 - cgroup cgroup rw,cpuset,cpu,cpuacct").2

end CgFs
namespace CgFs

/-- The filesystem-type token of a mount line's second segment, split on
dots, as computed inside `parse_mountinfo_for_line`. -/
def fs_dot_parts (sv1 : List Char) : List (List Char) :=
  splitChars (fun c => c = '.')
    (trimChars ((splitChars (fun c => c = ' ') (trimChars sv1)).getD 0 []))

/-- C6 counterexample: the line below satisfies every shape requirement (two
`" - "` segments, ≥ 6 and ≥ 3 fields) and its filesystem-type token
`"tmpfs.1.2"` contains a dot, yet `parse_mountinfo_for_line` returns `none`
instead of a record with subtype `Some "1.2"`: the code splits on every dot
and rejects tokens with more than one. -/
theorem c6_subtype_counterexample :
    (splitDashSep ("121 1731 0:42 / /shm rw noexec sh - tmpfs.1.2 shm rw,size" : String).data).length = 2 ∧
    6 ≤ (splitChars (fun c => c = ' ') (trimChars
      ((splitDashSep ("121 1731 0:42 / /shm rw noexec sh - tmpfs.1.2 shm rw,size" : String).data).getD 0 []))).length ∧
    3 ≤ (splitChars (fun c => c = ' ') (trimChars
      ((splitDashSep ("121 1731 0:42 / /shm rw noexec sh - tmpfs.1.2 shm rw,size" : String).data).getD 1 []))).length ∧
    '.' ∈ ((splitChars (fun c => c = ' ') (trimChars
      ((splitDashSep ("121 1731 0:42 / /shm rw noexec sh - tmpfs.1.2 shm rw,size" : String).data).getD 1 []))).getD 0 []) ∧
    parse_mountinfo_for_line "121 1731 0:42 / /shm rw noexec sh - tmpfs.1.2 shm rw,size" = none := by
  decide

/-- C6 (amended): for every mount line satisfying the shape requirements
(two `" - "` segments, at least 6 and 3 fields), a filesystem-type token
without a dot yields the parsed record with `(token, None)`, a token with
exactly one dot yields the record with the part before the dot paired with
`Some` of the part after it — in particular `"tmpfs.123"` yields
`("tmpfs", Some "123")` — while a token with two or more dots makes the
whole line parse to `none`. -/
theorem c6_subtype_amended (line : String) :
    (∀ sv0 sv1, splitDashSep line.data = [sv0, sv1] →
      6 ≤ (splitChars (fun c => c = ' ') (trimChars sv0)).length →
      3 ≤ (splitChars (fun c => c = ' ') (trimChars sv1)).length →
      ((fs_dot_parts sv1).length = 1 →
        parse_mountinfo_for_line line = some
          { mount_root :=
              String.mk ((splitChars (fun c => c = ' ') (trimChars sv0)).getD 3 []),
            mount_point :=
              String.mk ((splitChars (fun c => c = ' ') (trimChars sv0)).getD 4 []),
            fs_type := (String.mk ((fs_dot_parts sv1).getD 0 []), none),
            super_opts := (splitChars (fun c => c = ',')
              (trimChars ((splitChars (fun c => c = ' ') (trimChars sv1)).getD 2 []))).map
                String.mk }) ∧
      ((fs_dot_parts sv1).length = 2 →
        parse_mountinfo_for_line line = some
          { mount_root :=
              String.mk ((splitChars (fun c => c = ' ') (trimChars sv0)).getD 3 []),
            mount_point :=
              String.mk ((splitChars (fun c => c = ' ') (trimChars sv0)).getD 4 []),
            fs_type := (String.mk ((fs_dot_parts sv1).getD 0 []),
              some (String.mk ((fs_dot_parts sv1).getD 1 []))),
            super_opts := (splitChars (fun c => c = ',')
              (trimChars ((splitChars (fun c => c = ' ') (trimChars sv1)).getD 2 []))).map
                String.mk }) ∧
      (3 ≤ (fs_dot_parts sv1).length →
        parse_mountinfo_for_line line = none)) ∧
    parse_mountinfo_for_line
        "121 1731 0:42 / /shm rw,nosuid,nodev,noexec,relatime shared:68 master:66 - tmpfs.123 shm rw,size=65536k" =
      some { mount_root := "/", mount_point := "/shm",
             fs_type := ("tmpfs", some "123"),
             super_opts := ["rw", "size=65536k"] } := by
  refine ⟨?_, by decide⟩
  intro sv0 sv1 hsplit h6 h3
  have hraw : fs_dot_parts sv1 = splitChars (fun c => c = '.')
      (trimChars ((splitChars (fun c => c = ' ') (trimChars sv1)).getD 0 [])) := rfl
  refine ⟨?_, ?_, ?_⟩
  · intro hlen
    rcases hft : fs_dot_parts sv1 with _ | ⟨t, _ | ⟨u, rest⟩⟩
    · rw [hft] at hlen
      simp at hlen
    · rw [hraw] at hft
      rw [parse_mountinfo_for_line, hsplit]
      dsimp only
      rw [if_neg (by omega)]
      rw [hft]
      rfl
    · rw [hft] at hlen
      simp at hlen
  · intro hlen
    rcases hft : fs_dot_parts sv1 with _ | ⟨t, _ | ⟨u, _ | ⟨v, rest⟩⟩⟩
    · rw [hft] at hlen
      simp at hlen
    · rw [hft] at hlen
      simp at hlen
    · rw [hraw] at hft
      rw [parse_mountinfo_for_line, hsplit]
      dsimp only
      rw [if_neg (by omega)]
      rw [hft]
      rfl
    · rw [hft] at hlen
      simp at hlen
  · intro hdots
    rw [parse_mountinfo_for_line, hsplit]
    dsimp only
    rw [if_neg (by omega)]
    rw [fs_dot_parts] at hdots
    rcases hft : splitChars (fun c => c = '.')
        (trimChars ((splitChars (fun c => c = ' ') (trimChars sv1)).getD 0 [])) with
      _ | ⟨x, _ | ⟨y, _ | ⟨z, rest⟩⟩⟩ <;>
      first
        | rfl
        | exact absurd (hft ▸ hdots) (by simp)

/-- Witness for C6 (amended): a no-dot line and the documented single-dot
line both parse successfully to the expected records, and a two-dot token
makes the whole line parse to `none`. -/
theorem c6_subtype_amended_witness :
    (parse_mountinfo_for_line
        "121 1731 0:42 / /shm rw,nosuid,nodev,noexec,relatime shared:68 master:66 - tmpfs shm rw,size=65536k" =
      some { mount_root := "/", mount_point := "/shm",
             fs_type := ("tmpfs", none),
             super_opts := ["rw", "size=65536k"] }) ∧
    (parse_mountinfo_for_line
        "121 1731 0:42 / /shm rw,nosuid,nodev,noexec,relatime shared:68 master:66 - tmpfs.123 shm rw,size=65536k" =
      some { mount_root := "/", mount_point := "/shm",
             fs_type := ("tmpfs", some "123"),
             super_opts := ["rw", "size=65536k"] }) ∧
    parse_mountinfo_for_line "121 1731 0:42 / /shm rw noexec sh - tmpfs.1.2 shm rw,size" = none := by
  refine ⟨?_, ?_, ?_⟩
  · have h := ((c6_subtype_amended
        "121 1731 0:42 / /shm rw,nosuid,nodev,noexec,relatime shared:68 master:66 - tmpfs shm rw,size=65536k").1
      ("121 1731 0:42 / /shm rw,nosuid,nodev,noexec,relatime shared:68 master:66" : String).data
      ("tmpfs shm rw,size=65536k" : String).data
      (by decide) (by decide) (by decide)).1 (by decide)
    rw [h]
    decide
  · have h := ((c6_subtype_amended
        "121 1731 0:42 / /shm rw,nosuid,nodev,noexec,relatime shared:68 master:66 - tmpfs.123 shm rw,size=65536k").1
      ("121 1731 0:42 / /shm rw,nosuid,nodev,noexec,relatime shared:68 master:66" : String).data
      ("tmpfs.123 shm rw,size=65536k" : String).data
      (by decide) (by decide) (by decide)).2.1 (by decide)
    rw [h]
    decide
  · exact ((c6_subtype_amended
        "121 1731 0:42 / /shm rw noexec sh - tmpfs.1.2 shm rw,size").1
      ("121 1731 0:42 / /shm rw noexec sh" : String).data
      ("tmpfs.1.2 shm rw,size" : String).data
      (by decide) (by decide) (by decide)).2.2 (by decide)

end CgFs
namespace CgFs

/-! ## Helper lemmas: first-match scan of the v1 snapshot -/

theorem findSome_first_match (k : Controllers) :
    ∀ l : List Mountinfo, (∀ m ∈ l, m.fs_type.1 = "cgroup") →
      l.findSome? (fun m =>
        if m.fs_type.1 = "cgroup" ∧ k.to_string ∈ m.super_opts then
          some (m.mount_point, m.mount_root)
        else none) =
      (l.find? (fun m => decide (k.to_string ∈ m.super_opts))).map
        (fun m => (m.mount_point, m.mount_root)) := by
  intro l
  induction l with
  | nil => intro _; rfl
  | cons m ms ih =>
    intro hcg
    rw [List.findSome?_cons]
    by_cases hmem : k.to_string ∈ m.super_opts
    · rw [if_pos ⟨hcg m (List.mem_cons_self m ms), hmem⟩]
      rw [List.find?_cons_of_pos _ (by simpa using hmem)]
      rfl
    · rw [if_neg (fun hand => hmem hand.2)]
      rw [List.find?_cons_of_neg _ (by simpa using hmem)]
      exact ih (fun x hx => hcg x (List.mem_cons_of_mem m hx))

/-- C7: in the v1 hierarchy's `subsystems()` output, whenever both the
block-I/O and the memory controller resolve to a mount point, the block-I/O
entry strictly precedes the memory entry (indices 0 and 1); and over the
snapshots the constructor builds (every record filtered to fs type
`cgroup`), `get_mount_point` returns mount point and mount root of the first
record whose superblock options contain the controller's canonical tag. -/
theorem c7_v1_ordering (h : V1) :
    (∀ pr1 pr2 : String × String,
      h.get_mount_point Controllers.BlkIo = some pr1 →
      h.get_mount_point Controllers.Mem = some pr2 →
      ∃ rest, h.subsystems = Subsystem.BlkIo pr1.1 pr1.2 false ::
          Subsystem.Mem pr2.1 pr2.2 false :: rest ∧
        h.subsystems.findIdx is_blkio_sub = 0 ∧
        h.subsystems.findIdx is_mem_sub = 1) ∧
    (∀ k : Controllers, (∀ m ∈ h.mountinfo, m.fs_type.1 = "cgroup") →
      h.get_mount_point k =
        (h.mountinfo.find? (fun m => decide (k.to_string ∈ m.super_opts))).map
          (fun m => (m.mount_point, m.mount_root))) := by
  constructor
  · intro pr1 pr2 hB hM
    have heq : h.subsystems = Subsystem.BlkIo pr1.1 pr1.2 false ::
        Subsystem.Mem pr2.1 pr2.2 false :: (h.subsystems.drop 2) := by
      rw [V1.subsystems, hB, hM]
      simp only [push_sub, List.append_assoc, List.cons_append, List.nil_append,
        List.drop_succ_cons, List.drop_zero]
    refine ⟨h.subsystems.drop 2, heq, ?_, ?_⟩
    · rw [heq]
      simp [List.findIdx_cons, is_blkio_sub]
    · rw [heq]
      simp [List.findIdx_cons, is_blkio_sub, is_mem_sub]
  · intro k hcg
    rw [V1.get_mount_point]
    exact findSome_first_match k h.mountinfo hcg

/-- Witness for C7 at a concrete two-mount snapshot holding both a block-I/O
and a memory mount. -/
theorem c7_v1_ordering_witness :
    (∃ rest, (V1.mk
        [{ mount_root := "/", mount_point := "/sys/fs/cgroup/blkio",
           fs_type := ("cgroup", none), super_opts := ["rw", "blkio"] },
         { mount_root := "/", mount_point := "/sys/fs/cgroup/memory",
           fs_type := ("cgroup", none), super_opts := ["rw", "memory"] }]).subsystems =
        Subsystem.BlkIo "/sys/fs/cgroup/blkio" "/" false ::
          Subsystem.Mem "/sys/fs/cgroup/memory" "/" false :: rest ∧
      (V1.mk
        [{ mount_root := "/", mount_point := "/sys/fs/cgroup/blkio",
           fs_type := ("cgroup", none), super_opts := ["rw", "blkio"] },
         { mount_root := "/", mount_point := "/sys/fs/cgroup/memory",
           fs_type := ("cgroup", none), super_opts := ["rw", "memory"] }]).subsystems.findIdx
          is_blkio_sub = 0 ∧
      (V1.mk
        [{ mount_root := "/", mount_point := "/sys/fs/cgroup/blkio",
           fs_type := ("cgroup", none), super_opts := ["rw", "blkio"] },
         { mount_root := "/", mount_point := "/sys/fs/cgroup/memory",
           fs_type := ("cgroup", none), super_opts := ["rw", "memory"] }]).subsystems.findIdx
          is_mem_sub = 1) ∧
    (V1.mk
        [{ mount_root := "/", mount_point := "/sys/fs/cgroup/blkio",
           fs_type := ("cgroup", none), super_opts := ["rw", "blkio"] },
         { mount_root := "/", mount_point := "/sys/fs/cgroup/memory",
           fs_type := ("cgroup", none), super_opts := ["rw", "memory"] }]).get_mount_point
        Controllers.Mem =
      some ("/sys/fs/cgroup/memory", "/") := by
  constructor
  · exact (c7_v1_ordering (V1.mk
      [{ mount_root := "/", mount_point := "/sys/fs/cgroup/blkio",
         fs_type := ("cgroup", none), super_opts := ["rw", "blkio"] },
       { mount_root := "/", mount_point := "/sys/fs/cgroup/memory",
         fs_type := ("cgroup", none), super_opts := ["rw", "memory"] }])).1
      ("/sys/fs/cgroup/blkio", "/") ("/sys/fs/cgroup/memory", "/")
      (by decide) (by decide)
  · have := (c7_v1_ordering (V1.mk
      [{ mount_root := "/", mount_point := "/sys/fs/cgroup/blkio",
         fs_type := ("cgroup", none), super_opts := ["rw", "blkio"] },
       { mount_root := "/", mount_point := "/sys/fs/cgroup/memory",
         fs_type := ("cgroup", none), super_opts := ["rw", "memory"] }])).2
      Controllers.Mem (by decide)
    rw [this]
    decide

end CgFs
